import Mathlib

/-!
Verification of the RESUMAKE document formatter and related flows
(`src/app.py`).  The Python code is shallowly embedded on `List Char`:
strings become character lists, `str.split('\n')` becomes `splitOnChar`,
`str.strip()` becomes `pyStrip`, `str.isupper()` becomes `pyIsUpper`,
`len(s.split())` becomes `tokenCount`, and the sequential
`str.replace` calls of the PDF escaping become `replaceChar` passes.
The assembled reportlab story and python-docx document are modelled as
lists of structural elements.
-/

namespace Resumake

/-- Whitespace set used by Python `str.strip()` / `str.split()`
(ASCII fragment: space, tab, newline, carriage return, vertical tab,
form feed). -/
def isPySpace (c : Char) : Bool :=
  c = ' ' || c = '\t' || c = '\n' || c = '\r' || c.toNat = 11 || c.toNat = 12

/-- Python `s.split('\n')`: splitting on a separator character, keeping
empty pieces; the empty string yields one empty piece. -/
def splitOnChar (sep : Char) : List Char → List (List Char)
  | [] => [[]]
  | c :: rest =>
    if c = sep then [] :: splitOnChar sep rest
    else
      match splitOnChar sep rest with
      | [] => [[c]]
      | h :: t => (c :: h) :: t

/-- Python `s.strip()`: drop leading and trailing whitespace. -/
def pyStrip (l : List Char) : List Char :=
  ((l.dropWhile isPySpace).reverse.dropWhile isPySpace).reverse

/-- A character with a case, i.e. an ASCII letter. -/
def isCased (c : Char) : Bool :=
  c.isUpper || c.isLower

/-- Python `s.isupper()`: at least one cased character and no lower-case
cased character. -/
def pyIsUpper (l : List Char) : Bool :=
  l.any isCased && !(l.any Char.isLower)

/-- Token counter for Python `len(s.split())`: number of maximal runs of
non-whitespace characters.  The flag records whether the previous
character was inside a token. -/
def countTokensAux : Bool → List Char → Nat
  | _, [] => 0
  | inWord, c :: rest =>
    if isPySpace c then countTokensAux false rest
    else (if inWord then 0 else 1) + countTokensAux true rest

/-- Python `len(s.split())`. -/
def tokenCount (l : List Char) : Nat :=
  countTokensAux false l

/-- The characters of the replacement string `"&amp;"`. -/
def ampEsc : List Char := ['&', 'a', 'm', 'p', ';']

/-- The characters of the replacement string `"&lt;"`. -/
def ltEsc : List Char := ['&', 'l', 't', ';']

/-- The characters of the replacement string `"&gt;"`. -/
def gtEsc : List Char := ['&', 'g', 't', ';']

/-- The characters of the opening bold tag `"<b>"`. -/
def bOpen : List Char := ['<', 'b', '>']

/-- The characters of the closing bold tag `"</b>"`. -/
def bClose : List Char := ['<', '/', 'b', '>']

/-- Python `s.replace(needle, repl)` for a single-character needle. -/
def replaceChar (needle : Char) (repl : List Char) : List Char → List Char
  | [] => []
  | c :: rest => (if c = needle then repl else [c]) ++ replaceChar needle repl rest

/-- The escaping pipeline of `export_to_pdf` line 115:
`line.replace('&', '&amp;').replace('<', '&lt;').replace('>', '&gt;')`,
ampersand first. -/
def escapePdf (l : List Char) : List Char :=
  replaceChar '>' gtEsc (replaceChar '<' ltEsc (replaceChar '&' ampEsc l))

/-- Character-wise escaping map (the intended semantics of the three
sequential passes). -/
def escChar (c : Char) : List Char :=
  if c = '&' then ampEsc
  else if c = '<' then ltEsc
  else if c = '>' then gtEsc
  else [c]

/-- Does `l` start with the pattern `pat`? -/
def startsWith : List Char → List Char → Bool
  | _, [] => true
  | [], _ :: _ => false
  | c :: l, p :: ps => c = p && startsWith l ps

/-- Does the pattern `pat` occur as a contiguous subsequence of `l`? -/
def containsSeq (pat : List Char) : List Char → Bool
  | [] => startsWith [] pat
  | c :: rest => startsWith (c :: rest) pat || containsSeq pat rest

/-- The line classification shared by both exports (lines 111/117 and
144/150 of `src/app.py`): strip, test emptiness, then
`line.isupper() and len(line.split()) <= 8`. -/
inductive LineClass
  | heading
  | body
  | spacer
  deriving DecidableEq, Repr

/-- Classify one input line exactly as both export loops do. -/
def classifyLine (raw : List Char) : LineClass :=
  let line := pyStrip raw
  if line = [] then .spacer
  else if pyIsUpper line = true ∧ tokenCount line ≤ 8 then .heading
  else .body

/-- Element of the reportlab story assembled by `export_to_pdf`:
`Spacer(1, 0.05*inch)` (width, height in hundredths of an inch) or a
`Paragraph` whose markup string is recorded. -/
inductive PdfElem
  | spacer (width : Nat) (heightHundredthsInch : Nat)
  | para (markup : List Char)
  deriving DecidableEq, Repr

/-- The element appended for one line of the PDF export loop
(lines 109-122 of `src/app.py`). -/
def pdfLineElem (raw : List Char) : PdfElem :=
  let line := pyStrip raw
  if line = [] then .spacer 1 5
  else
    let lineSafe := escapePdf line
    if pyIsUpper line = true ∧ tokenCount line ≤ 8 then
      .para (bOpen ++ lineSafe ++ bClose)
    else
      .para lineSafe

/-- The full story built by `export_to_pdf`: one element per line of
`resume_text.split('\n')`. -/
def pdfStory (text : List Char) : List PdfElem :=
  (splitOnChar '\n' text).map pdfLineElem

/-- `export_to_pdf`: `None` when `PDF_EXPORT_SUPPORT` is false, otherwise
the completely assembled document. -/
def export_to_pdf (pdfExportSupport : Bool) (text : List Char) : Option (List PdfElem) :=
  if pdfExportSupport then some (pdfStory text) else none

/-- Element of the python-docx document assembled by `export_to_docx`:
`doc.add_paragraph()` for a blank line (no runs), or a text paragraph
whose single run carries the recorded bold flag and font size in
points. -/
inductive DocxElem
  | blankPara
  | textPara (text : List Char) (bold : Bool) (sizePt : Nat)
  deriving DecidableEq, Repr

/-- The element appended for one line of the DOCX export loop
(lines 142-156 of `src/app.py`). -/
def docxLineElem (raw : List Char) : DocxElem :=
  let line := pyStrip raw
  if line = [] then .blankPara
  else if pyIsUpper line = true ∧ tokenCount line ≤ 8 then
    .textPara line true 12
  else
    .textPara line false 11

/-- The full paragraph list built by `export_to_docx`. -/
def docxDoc (text : List Char) : List DocxElem :=
  (splitOnChar '\n' text).map docxLineElem

/-- `export_to_docx`: `None` when `DOCX_SUPPORT` is false, otherwise the
completely assembled document. -/
def export_to_docx (docxSupport : Bool) (text : List Char) : Option (List DocxElem) :=
  if docxSupport then some (docxDoc text) else none

/-- A run of a docx paragraph (text, bold flag, size in points):
`add_paragraph(line)` yields one run holding the text,
`add_paragraph()` yields none. -/
structure DocxRun where
  text : List Char
  bold : Bool
  sizePt : Nat
  deriving DecidableEq, Repr

/-- The runs of a modelled docx element. -/
def runsOf : DocxElem → List DocxRun
  | .blankPara => []
  | .textPara t b s => [⟨t, b, s⟩]

/-- Classification recovered from a PDF story element: markup starting
with the inserted bold tag marks a heading. -/
def pdfClass : PdfElem → LineClass
  | .spacer _ _ => .spacer
  | .para m => if startsWith m bOpen then .heading else .body

/-- Classification recovered from a docx element via its run
formatting. -/
def docxClass : DocxElem → LineClass
  | .blankPara => .spacer
  | .textPara _ true _ => .heading
  | .textPara _ false _ => .body

/-- The markup text of a PDF paragraph element, `none` for spacers. -/
def paraMarkup : PdfElem → Option (List Char)
  | .spacer _ _ => none
  | .para m => some m

/-- The text of a docx paragraph with runs, `none` for blank
paragraphs. -/
def docxText : DocxElem → Option (List Char)
  | .blankPara => none
  | .textPara t _ _ => some t

/-- The stripped non-empty lines of the input text, in order. -/
def nonEmptyLines (text : List Char) : List (List Char) :=
  ((splitOnChar '\n' text).map pyStrip).filter (fun l => !l.isEmpty)

/-- The markup the PDF export produces for one stripped non-empty
line. -/
def renderMarkup (line : List Char) : List Char :=
  if pyIsUpper line = true ∧ tokenCount line ≤ 8 then bOpen ++ escapePdf line ++ bClose
  else escapePdf line

end Resumake

namespace Resumake

/-! Helper lemmas about the escaping pipeline. -/

theorem replaceChar_append (needle : Char) (repl a b : List Char) :
    replaceChar needle repl (a ++ b) = replaceChar needle repl a ++ replaceChar needle repl b := by
  induction a with
  | nil => rfl
  | cons c a ih => simp [replaceChar, ih]

theorem escapePdf_cons (c : Char) (l : List Char) :
    escapePdf (c :: l) = escChar c ++ escapePdf l := by
  unfold escapePdf
  have h1 : replaceChar '&' ampEsc (c :: l)
      = (if c = '&' then ampEsc else [c]) ++ replaceChar '&' ampEsc l := rfl
  rw [h1, replaceChar_append, replaceChar_append]
  congr 1
  by_cases ha : c = '&'
  · subst ha; simp [escChar]; rfl
  · rw [if_neg ha]
    by_cases hl : c = '<'
    · subst hl; simp [escChar]; rfl
    · by_cases hg : c = '>'
      · subst hg; simp [escChar, ha]; rfl
      · simp [escChar, ha, hl, hg, replaceChar]

theorem escapePdf_eq_flatMap (l : List Char) : escapePdf l = l.flatMap escChar := by
  induction l with
  | nil => rfl
  | cons c l ih => rw [escapePdf_cons, ih, List.flatMap_cons]

theorem mem_escChar_ne_lt {x : Char} {c : Char} (h : x ∈ escChar c) : x ≠ '<' := by
  unfold escChar at h
  by_cases ha : c = '&'
  · simp [ha, ampEsc] at h
    rcases h with rfl | rfl | rfl | rfl | rfl <;> decide
  · by_cases hl : c = '<'
    · simp [ha, hl, ltEsc] at h
      rcases h with rfl | rfl | rfl | rfl <;> decide
    · by_cases hg : c = '>'
      · simp [ha, hl, hg, gtEsc] at h
        rcases h with rfl | rfl | rfl | rfl <;> decide
      · simp [ha, hl, hg] at h
        subst h
        exact hl

theorem mem_escapePdf_ne_lt {x : Char} {l : List Char} (h : x ∈ escapePdf l) : x ≠ '<' := by
  rw [escapePdf_eq_flatMap] at h
  rw [List.mem_flatMap] at h
  obtain ⟨c, _, hc⟩ := h
  exact mem_escChar_ne_lt hc

theorem startsWith_nil_pat (l : List Char) : startsWith l [] = true := by
  cases l <;> rfl

theorem startsWith_append_self (p l : List Char) : startsWith (p ++ l) p = true := by
  induction p with
  | nil => exact startsWith_nil_pat l
  | cons c p ih => simp [startsWith, ih]

theorem startsWith_cons_mem {l : List Char} {c : Char} {ps : List Char}
    (h : startsWith l (c :: ps) = true) : c ∈ l := by
  cases l with
  | nil => simp [startsWith] at h
  | cons a as =>
    simp only [startsWith, Bool.and_eq_true, decide_eq_true_eq] at h
    rw [← h.1]
    exact List.mem_cons_self a as

theorem startsWith_bOpen_escapePdf (l : List Char) :
    startsWith (escapePdf l) bOpen = false := by
  cases hsw : startsWith (escapePdf l) bOpen
  · rfl
  · exact absurd rfl (mem_escapePdf_ne_lt (startsWith_cons_mem hsw))

/-! Classification of the per-line elements. -/

theorem pdfClass_pdfLineElem (raw : List Char) :
    pdfClass (pdfLineElem raw) = classifyLine raw := by
  by_cases h0 : pyStrip raw = []
  · rw [show pdfLineElem raw = PdfElem.spacer 1 5 from by simp [pdfLineElem, h0]]
    simp [pdfClass, classifyLine, h0]
  · by_cases h1 : pyIsUpper (pyStrip raw) = true ∧ tokenCount (pyStrip raw) ≤ 8
    · rw [show pdfLineElem raw = PdfElem.para (bOpen ++ (escapePdf (pyStrip raw) ++ bClose)) from by
            simp [pdfLineElem, h0, h1]]
      simp [pdfClass, classifyLine, h0, h1, startsWith_append_self]
    · rw [show pdfLineElem raw = PdfElem.para (escapePdf (pyStrip raw)) from by
            simp [pdfLineElem, h0, h1]]
      simp [pdfClass, classifyLine, h0, h1, startsWith_bOpen_escapePdf]

theorem docxClass_docxLineElem (raw : List Char) :
    docxClass (docxLineElem raw) = classifyLine raw := by
  unfold docxLineElem classifyLine
  by_cases h0 : pyStrip raw = []
  · simp [h0, docxClass]
  · by_cases h1 : pyIsUpper (pyStrip raw) = true ∧ tokenCount (pyStrip raw) ≤ 8
    · simp [h0, h1, docxClass]
    · simp [h0, h1, docxClass]

/-- Claim C1: for every input line, both exports classify the line as a
heading iff after stripping it is non-empty, entirely upper-case in the
sense of Python `isupper`, and has at most eight whitespace-separated
tokens; non-empty lines failing the test are body lines and empty lines
are spacers; and the classification recovered from the PDF story element
and from the DOCX paragraph element agree. -/
theorem heading_classification_shared (raw : List Char) :
    pdfClass (pdfLineElem raw) = docxClass (docxLineElem raw)
    ∧ (docxClass (docxLineElem raw) = LineClass.heading ↔
        (pyStrip raw ≠ [] ∧ pyIsUpper (pyStrip raw) = true ∧ tokenCount (pyStrip raw) ≤ 8))
    ∧ (docxClass (docxLineElem raw) = LineClass.spacer ↔ pyStrip raw = [])
    ∧ (docxClass (docxLineElem raw) = LineClass.body ↔
        (pyStrip raw ≠ [] ∧ ¬(pyIsUpper (pyStrip raw) = true ∧ tokenCount (pyStrip raw) ≤ 8))) := by
  rw [pdfClass_pdfLineElem, docxClass_docxLineElem]
  unfold classifyLine
  by_cases h0 : pyStrip raw = []
  · simp [h0]
  · by_cases h1 : pyIsUpper (pyStrip raw) = true ∧ tokenCount (pyStrip raw) ≤ 8
    · simp [h0, h1]
    · simp [h0, h1]

/-! Per-line paragraph extraction for claim C2. -/

theorem pdf_filterMap_lines (ls : List (List Char)) :
    (ls.map pdfLineElem).filterMap paraMarkup
      = ((ls.map pyStrip).filter (fun l => !l.isEmpty)).map renderMarkup := by
  induction ls with
  | nil => rfl
  | cons x ls ih =>
    by_cases h0 : pyStrip x = []
    · simp only [List.map_cons, List.filterMap_cons, List.filter_cons]
      rw [show pdfLineElem x = PdfElem.spacer 1 5 from by simp [pdfLineElem, h0]]
      simp [paraMarkup, h0, ih]
    · by_cases h1 : pyIsUpper (pyStrip x) = true ∧ tokenCount (pyStrip x) ≤ 8
      · simp only [List.map_cons, List.filterMap_cons, List.filter_cons]
        rw [show pdfLineElem x = PdfElem.para (bOpen ++ escapePdf (pyStrip x) ++ bClose) from by
              simp [pdfLineElem, h0, h1]]
        simp [paraMarkup, h0, h1, renderMarkup, ih, List.isEmpty_iff]
      · simp only [List.map_cons, List.filterMap_cons, List.filter_cons]
        rw [show pdfLineElem x = PdfElem.para (escapePdf (pyStrip x)) from by
              simp [pdfLineElem, h0, h1]]
        simp [paraMarkup, h0, h1, renderMarkup, ih, List.isEmpty_iff]

theorem docx_filterMap_lines (ls : List (List Char)) :
    (ls.map docxLineElem).filterMap docxText
      = (ls.map pyStrip).filter (fun l => !l.isEmpty) := by
  induction ls with
  | nil => rfl
  | cons x ls ih =>
    by_cases h0 : pyStrip x = []
    · simp only [List.map_cons, List.filterMap_cons, List.filter_cons]
      rw [show docxLineElem x = DocxElem.blankPara from by simp [docxLineElem, h0]]
      simp [docxText, h0, ih]
    · by_cases h1 : pyIsUpper (pyStrip x) = true ∧ tokenCount (pyStrip x) ≤ 8
      · simp only [List.map_cons, List.filterMap_cons, List.filter_cons]
        rw [show docxLineElem x = DocxElem.textPara (pyStrip x) true 12 from by
              simp [docxLineElem, h0, h1]]
        simp [docxText, h0, ih, List.isEmpty_iff]
      · simp only [List.map_cons, List.filterMap_cons, List.filter_cons]
        rw [show docxLineElem x = DocxElem.textPara (pyStrip x) false 11 from by
              simp [docxLineElem, h0, h1]]
        simp [docxText, h0, ih, List.isEmpty_iff]

/-- Claim C2: for every input text, the PDF story contains exactly one
paragraph per non-empty line (its markup being the rendering of that
stripped line) and the DOCX document contains exactly one text paragraph
per non-empty line (carrying the stripped line verbatim), each in input
order, so no non-empty line is dropped, merged, or duplicated. -/
theorem one_paragraph_per_nonempty_line (text : List Char) :
    (pdfStory text).filterMap paraMarkup = (nonEmptyLines text).map renderMarkup
    ∧ (docxDoc text).filterMap docxText = nonEmptyLines text
    ∧ ((pdfStory text).filterMap paraMarkup).length = (nonEmptyLines text).length
    ∧ ((docxDoc text).filterMap docxText).length = (nonEmptyLines text).length := by
  have e1 : (pdfStory text).filterMap paraMarkup = (nonEmptyLines text).map renderMarkup :=
    pdf_filterMap_lines (splitOnChar '\n' text)
  have e2 : (docxDoc text).filterMap docxText = nonEmptyLines text :=
    docx_filterMap_lines (splitOnChar '\n' text)
  refine ⟨e1, e2, ?_, ?_⟩
  · rw [e1]
    simp
  · rw [e2]

end Resumake

namespace Resumake

/-! Helper lemmas about occurrence of patterns, for claim C3. -/

theorem containsSeq_of_startsWith {pat l : List Char} (h : startsWith l pat = true) :
    containsSeq pat l = true := by
  cases l with
  | nil => exact h
  | cons c rest => simp [containsSeq, h]

theorem startsWith_append_right {pat l : List Char} (post : List Char)
    (h : startsWith l pat = true) : startsWith (l ++ post) pat = true := by
  induction pat generalizing l with
  | nil => exact startsWith_nil_pat _
  | cons p ps ih =>
    cases l with
    | nil => simp [startsWith] at h
    | cons c cs =>
      simp only [startsWith, Bool.and_eq_true] at h
      simp only [List.cons_append, startsWith, Bool.and_eq_true]
      exact ⟨h.1, ih h.2⟩

theorem containsSeq_append_left {pat l : List Char} (pre : List Char)
    (h : containsSeq pat l = true) : containsSeq pat (pre ++ l) = true := by
  induction pre with
  | nil => exact h
  | cons c pre ih => simp [containsSeq, ih]

theorem containsSeq_nil_pat (l : List Char) : containsSeq [] l = true := by
  cases l <;> simp [containsSeq, startsWith_nil_pat, startsWith]

theorem containsSeq_append_right {pat l : List Char} (post : List Char)
    (h : containsSeq pat l = true) : containsSeq pat (l ++ post) = true := by
  induction l with
  | nil =>
    cases pat with
    | nil => exact containsSeq_nil_pat _
    | cons p ps => simp [containsSeq, startsWith] at h
  | cons c cs ih =>
    simp only [containsSeq, Bool.or_eq_true] at h
    rcases h with h | h
    · simp only [List.cons_append, containsSeq, Bool.or_eq_true]
      exact Or.inl (by simpa using startsWith_append_right post h)
    · simp only [List.cons_append, containsSeq, Bool.or_eq_true]
      exact Or.inr (ih h)

theorem containsSeq_head_mem {c : Char} {ps l : List Char}
    (h : containsSeq (c :: ps) l = true) : c ∈ l := by
  induction l with
  | nil => simp [containsSeq, startsWith] at h
  | cons a as ih =>
    simp only [containsSeq, Bool.or_eq_true] at h
    rcases h with h | h
    · exact startsWith_cons_mem h
    · exact List.mem_cons_of_mem a (ih h)

theorem containsSeq_ltEsc_escapePdf {l : List Char} (h : '<' ∈ l) :
    containsSeq ltEsc (escapePdf l) = true := by
  obtain ⟨s, t, rfl⟩ := List.append_of_mem h
  rw [escapePdf_eq_flatMap, List.flatMap_append, List.flatMap_cons]
  apply containsSeq_append_left
  rw [show escChar '<' = ltEsc from rfl]
  exact containsSeq_of_startsWith (startsWith_append_self _ _)

theorem containsSeq_bOpen_escapePdf (l : List Char) :
    containsSeq bOpen (escapePdf l) = false := by
  cases hcs : containsSeq bOpen (escapePdf l)
  · rfl
  · exact absurd rfl (mem_escapePdf_ne_lt (containsSeq_head_mem hcs))

/-- Claim C3: in the PDF export each line is escaped by the three
sequential replace passes with ampersand first, which amounts to the
per-character escaping map; the escaped text contains no `<` at all, so
the bold tag occurs in a paragraph's markup only when the heading rule
itself inserted it, and a literal `<` of the input line surfaces as the
escape `&lt;` in the markup. -/
theorem pdf_markup_escaping (raw m : List Char) (hm : pdfLineElem raw = PdfElem.para m) :
    escapePdf (pyStrip raw) = (pyStrip raw).flatMap escChar
    ∧ (∀ x ∈ escapePdf (pyStrip raw), x ≠ '<')
    ∧ (m = escapePdf (pyStrip raw) ∨ m = bOpen ++ escapePdf (pyStrip raw) ++ bClose)
    ∧ (containsSeq bOpen m = true → m = bOpen ++ escapePdf (pyStrip raw) ++ bClose)
    ∧ ('<' ∈ pyStrip raw → containsSeq ltEsc m = true) := by
  by_cases h0 : pyStrip raw = []
  · rw [show pdfLineElem raw = PdfElem.spacer 1 5 from by simp [pdfLineElem, h0]] at hm
    cases hm
  · by_cases h1 : pyIsUpper (pyStrip raw) = true ∧ tokenCount (pyStrip raw) ≤ 8
    · rw [show pdfLineElem raw = PdfElem.para (bOpen ++ escapePdf (pyStrip raw) ++ bClose) from by
            simp [pdfLineElem, h0, h1]] at hm
      cases hm
      refine ⟨escapePdf_eq_flatMap _, fun x hx => mem_escapePdf_ne_lt hx, Or.inr rfl,
        fun _ => rfl, fun hlt => ?_⟩
      exact containsSeq_append_right _ (containsSeq_append_left _ (containsSeq_ltEsc_escapePdf hlt))
    · rw [show pdfLineElem raw = PdfElem.para (escapePdf (pyStrip raw)) from by
            simp [pdfLineElem, h0, h1]] at hm
      cases hm
      refine ⟨escapePdf_eq_flatMap _, fun x hx => mem_escapePdf_ne_lt hx, Or.inl rfl,
        fun hcs => ?_, fun hlt => containsSeq_ltEsc_escapePdf hlt⟩
      rw [containsSeq_bOpen_escapePdf] at hcs
      cases hcs

/-- Witness for C3 at the concrete body line `"a<b"`: the bold tag does
not occur in its markup and the literal `<` appears escaped. -/
theorem pdf_markup_escaping_witness :
    containsSeq ltEsc "a&lt;b".data = true
    ∧ containsSeq bOpen "a&lt;b".data = false := by
  have h := pdf_markup_escaping "a<b".data "a&lt;b".data (by decide)
  refine ⟨h.2.2.2.2 (by decide), ?_⟩
  cases hcs : containsSeq bOpen "a&lt;b".data
  · rfl
  · have := h.2.2.2.1 hcs
    exact absurd (congrArg List.length this) (by decide)

/-- Claim C4: a line that is blank after stripping yields the fixed
small spacer (`Spacer(1, 0.05*inch)`) in the PDF story and a paragraph
with no runs in the DOCX document, so no body-styled empty paragraph is
added by either export. -/
theorem spacer_line_rendering (raw : List Char) (h : pyStrip raw = []) :
    pdfLineElem raw = PdfElem.spacer 1 5
    ∧ docxLineElem raw = DocxElem.blankPara
    ∧ runsOf (docxLineElem raw) = []
    ∧ (∀ t b s, docxLineElem raw ≠ DocxElem.textPara t b s) := by
  have h1 : pdfLineElem raw = PdfElem.spacer 1 5 := by simp [pdfLineElem, h]
  have h2 : docxLineElem raw = DocxElem.blankPara := by simp [docxLineElem, h]
  refine ⟨h1, h2, by rw [h2]; rfl, fun t b s hc => ?_⟩
  rw [h2] at hc
  cases hc

/-- Witness for C4 at a whitespace-only line. -/
theorem spacer_line_rendering_witness :
    pdfLineElem "   ".data = PdfElem.spacer 1 5
    ∧ docxLineElem "   ".data = DocxElem.blankPara :=
  ⟨(spacer_line_rendering "   ".data (by decide)).1,
   (spacer_line_rendering "   ".data (by decide)).2.1⟩

end Resumake

namespace Resumake

/-- One education entry of the Resume Builder form (lines 364-384 of
`src/app.py`). -/
structure EduEntry where
  degree : List Char
  institution : List Char
  year : List Char
  gpa : List Char
  deriving DecidableEq, Repr

/-- Python truthiness gate `if degree and institution` (line 378): both
designated key fields non-empty. -/
def eduKeep (e : EduEntry) : Bool :=
  !e.degree.isEmpty && !e.institution.isEmpty

/-- The collection loop (lines 368-380): entry `i` is appended to
`education_entries` only when degree and institution are both
non-empty. -/
def collectEducation (inputs : List EduEntry) : List EduEntry :=
  inputs.filter eduKeep

/-- The session resume record, restricted to the education section the
claim is about. -/
structure ResumeData where
  education : List EduEntry
  deriving Repr

/-- The save action (lines 382-384): wholesale assignment of the
collected entries plus the unconditional success flag shown by
`st.success`. -/
def saveEducation (inputs : List EduEntry) (rd : ResumeData) : ResumeData × Bool :=
  ({ rd with education := collectEducation inputs }, true)

/-- Claim C5: saving the education section stores exactly the entries
whose degree and institution are both non-empty, wholesale (independent
of the previously stored list), in their original relative order; an
entry with a required field empty is absent; the action still reports
success. -/
theorem education_save_filters (inputs : List EduEntry) (rd : ResumeData) :
    (saveEducation inputs rd).1.education = inputs.filter eduKeep
    ∧ (saveEducation inputs rd).2 = true
    ∧ List.Sublist ((saveEducation inputs rd).1.education) inputs
    ∧ (∀ e ∈ inputs, eduKeep e = true → e ∈ (saveEducation inputs rd).1.education)
    ∧ (∀ e, eduKeep e = false → e ∉ (saveEducation inputs rd).1.education)
    ∧ (∀ rd2 : ResumeData,
        (saveEducation inputs rd2).1.education = (saveEducation inputs rd).1.education) := by
  refine ⟨rfl, rfl, List.filter_sublist _, ?_, ?_, fun _ => rfl⟩
  · intro e he hk
    exact List.mem_filter.mpr ⟨he, hk⟩
  · intro e hk hmem
    have h2 := (List.mem_filter.mp hmem).2
    rw [hk] at h2
    cases h2

/-- Witness for C5: a partially filled entry between two complete ones
is dropped, the others kept in order, success reported. -/
theorem education_save_filters_witness :
    (saveEducation
      [⟨"BS".data, "MIT".data, "2020".data, [] ⟩,
       ⟨[], "CMU".data, [], [] ⟩,
       ⟨"MS".data, "CMU".data, "2022".data, [] ⟩] ⟨[]⟩).1.education
      = [⟨"BS".data, "MIT".data, "2020".data, [] ⟩,
         ⟨"MS".data, "CMU".data, "2022".data, [] ⟩]
    ∧ (saveEducation
      [⟨"BS".data, "MIT".data, "2020".data, [] ⟩,
       ⟨[], "CMU".data, [], [] ⟩,
       ⟨"MS".data, "CMU".data, "2022".data, [] ⟩] ⟨[]⟩).2 = true := by
  have h := education_save_filters
    [⟨"BS".data, "MIT".data, "2020".data, [] ⟩,
     ⟨[], "CMU".data, [], [] ⟩,
     ⟨"MS".data, "CMU".data, "2022".data, [] ⟩] ⟨[]⟩
  refine ⟨?_, h.2.1⟩
  rw [h.1]
  decide

/-- Availability of the three download buttons (lines 592-626 of
`src/app.py`): TXT unconditional; the PDF button is rendered when
`PDF_EXPORT_SUPPORT` holds and `export_to_pdf` returned data; the DOCX
button likewise from `DOCX_SUPPORT` and `export_to_docx`. -/
structure DownloadSurface where
  txt : Bool
  pdf : Bool
  docx : Bool
  deriving DecidableEq, Repr

/-- The download surface computed for the current generated resume. -/
def downloadSurface (pdfSupport docxSupport : Bool) (text : List Char) : DownloadSurface where
  txt := true
  pdf := pdfSupport && (export_to_pdf pdfSupport text).isSome
  docx := docxSupport && (export_to_docx docxSupport text).isSome

/-- Claim C6: each export either returns the complete assembled document
or the failure signal `None`; an unavailable library yields `None`, an
available one yields the full story with one element per input line
(never a partial assembly), and the availability of one encoding leaves
the TXT download and the other encoding's download unaffected. -/
theorem export_failure_signalling (ps ds : Bool) (text : List Char) :
    (ps = false → export_to_pdf ps text = none)
    ∧ (ds = false → export_to_docx ds text = none)
    ∧ (ps = true → export_to_pdf ps text = some (pdfStory text)
        ∧ (pdfStory text).length = (splitOnChar '\n' text).length)
    ∧ (ds = true → export_to_docx ds text = some (docxDoc text)
        ∧ (docxDoc text).length = (splitOnChar '\n' text).length)
    ∧ (downloadSurface ps ds text).txt = true
    ∧ (∀ ps2 : Bool, (downloadSurface ps2 ds text).docx = (downloadSurface ps ds text).docx)
    ∧ (∀ ds2 : Bool, (downloadSurface ps ds2 text).pdf = (downloadSurface ps ds text).pdf) := by
  refine ⟨?_, ?_, ?_, ?_, rfl, fun _ => rfl, fun _ => rfl⟩
  · intro h
    simp [export_to_pdf, h]
  · intro h
    simp [export_to_docx, h]
  · intro h
    refine ⟨by simp [export_to_pdf, h], ?_⟩
    unfold pdfStory
    simp
  · intro h
    refine ⟨by simp [export_to_docx, h], ?_⟩
    unfold docxDoc
    simp

/-- Witness for C6: with reportlab absent the PDF export signals `None`
while the DOCX export still returns its complete document. -/
theorem export_failure_signalling_witness :
    export_to_pdf false "HI".data = none
    ∧ export_to_docx true "HI".data = some (docxDoc "HI".data) :=
  ⟨(export_failure_signalling false true "HI".data).1 rfl,
   ((export_failure_signalling false true "HI".data).2.2.2.1 rfl).1⟩

/-- Counterexample to C7 as stated: on empty input, both exports (with
their libraries available) return a completed document rather than any
failure signal. -/
theorem empty_input_counterexample :
    export_to_pdf true [] = some [PdfElem.spacer 1 5]
    ∧ export_to_docx true [] = some [DocxElem.blankPara]
    ∧ export_to_pdf true [] ≠ none
    ∧ export_to_docx true [] ≠ none := by
  refine ⟨rfl, rfl, ?_, ?_⟩ <;> decide

/-- Claim C7 (amended): for blank or empty input (every line whitespace
only) the exports do not signal any failure; each returns a document
consisting solely of spacer elements, one per input line. -/
theorem blank_input_yields_spacer_document (text : List Char)
    (h : ∀ l ∈ splitOnChar '\n' text, pyStrip l = []) :
    export_to_pdf true text
        = some (List.replicate (splitOnChar '\n' text).length (PdfElem.spacer 1 5))
    ∧ export_to_docx true text
        = some (List.replicate (splitOnChar '\n' text).length DocxElem.blankPara)
    ∧ export_to_pdf true text ≠ none
    ∧ export_to_docx true text ≠ none := by
  have hp : pdfStory text
      = List.replicate (splitOnChar '\n' text).length (PdfElem.spacer 1 5) := by
    unfold pdfStory
    rw [List.eq_replicate_iff]
    refine ⟨by simp, fun b hb => ?_⟩
    obtain ⟨x, hx, rfl⟩ := List.mem_map.mp hb
    simp [pdfLineElem, h x hx]
  have hd : docxDoc text
      = List.replicate (splitOnChar '\n' text).length DocxElem.blankPara := by
    unfold docxDoc
    rw [List.eq_replicate_iff]
    refine ⟨by simp, fun b hb => ?_⟩
    obtain ⟨x, hx, rfl⟩ := List.mem_map.mp hb
    simp [docxLineElem, h x hx]
  refine ⟨by simp [export_to_pdf, hp], by simp [export_to_docx, hd], by simp [export_to_pdf], by
    simp [export_to_docx]⟩

/-- Witness for C7 (amended) at the blank text of two whitespace
lines. -/
theorem blank_input_yields_spacer_document_witness :
    export_to_pdf true " \n\t".data = some (List.replicate 2 (PdfElem.spacer 1 5)) := by
  have h := blank_input_yields_spacer_document " \n\t".data (by decide)
  exact h.1

end Resumake

namespace Resumake

/-! Membership lemmas about `pyStrip`, for claims C9 and C10. -/

theorem mem_of_mem_dropWhile {p : Char → Bool} {c : Char} {l : List Char}
    (h : c ∈ l.dropWhile p) : c ∈ l :=
  List.Sublist.mem h (List.dropWhile_sublist _)

theorem mem_of_mem_pyStrip {c : Char} {l : List Char} (h : c ∈ pyStrip l) : c ∈ l := by
  unfold pyStrip at h
  rw [List.mem_reverse] at h
  have h2 := mem_of_mem_dropWhile h
  rw [List.mem_reverse] at h2
  exact mem_of_mem_dropWhile h2

theorem mem_dropWhile_of_mem {p : Char → Bool} {c : Char} {l : List Char}
    (hc : c ∈ l) (h : p c = false) : c ∈ l.dropWhile p := by
  induction l with
  | nil => cases hc
  | cons x xs ih =>
    rw [List.dropWhile_cons]
    by_cases hx : p x = true
    · rw [if_pos hx]
      rcases List.mem_cons.mp hc with rfl | hmem
      · rw [hx] at h
        cases h
      · exact ih hmem
    · rw [if_neg hx]
      exact hc

theorem mem_pyStrip_of_mem {c : Char} {l : List Char}
    (hc : c ∈ l) (hns : isPySpace c = false) : c ∈ pyStrip l := by
  unfold pyStrip
  rw [List.mem_reverse]
  apply mem_dropWhile_of_mem _ hns
  rw [List.mem_reverse]
  exact mem_dropWhile_of_mem hc hns

theorem pyIsUpper_eq_false_of_no_cased {l : List Char}
    (h : ∀ c ∈ l, isCased c = false) : pyIsUpper l = false := by
  unfold pyIsUpper
  have ha : l.any isCased = false := by
    rw [Bool.eq_false_iff]
    intro hany
    obtain ⟨c, hc, hcc⟩ := List.any_eq_true.mp hany
    rw [h c hc] at hcc
    cases hcc
  rw [ha]
  rfl

/-- Claim C10: a line with no cased character (digits, punctuation,
dates such as `2020 - 2023`) is never a heading in either export, even
though it vacuously has no lower-case character; when non-blank it is
rendered as a plain body paragraph by both encodings. -/
theorem uncased_line_never_heading (raw : List Char)
    (hne : pyStrip raw ≠ [])
    (h : ∀ c ∈ raw, isCased c = false) :
    classifyLine raw = LineClass.body
    ∧ pdfLineElem raw = PdfElem.para (escapePdf (pyStrip raw))
    ∧ docxLineElem raw = DocxElem.textPara (pyStrip raw) false 11 := by
  have hstrip : ∀ c ∈ pyStrip raw, isCased c = false :=
    fun c hc => h c (mem_of_mem_pyStrip hc)
  have hup : pyIsUpper (pyStrip raw) = false := pyIsUpper_eq_false_of_no_cased hstrip
  have hcond : ¬(pyIsUpper (pyStrip raw) = true ∧ tokenCount (pyStrip raw) ≤ 8) := by
    rintro ⟨h1, _⟩
    rw [hup] at h1
    cases h1
  exact ⟨by simp [classifyLine, hne, hcond], by simp [pdfLineElem, hne, hcond],
    by simp [docxLineElem, hne, hcond]⟩

/-- Witness for C10 at the date line `"2020 - 2023"`. -/
theorem uncased_line_never_heading_witness :
    classifyLine "2020 - 2023".data = LineClass.body :=
  (uncased_line_never_heading "2020 - 2023".data (by decide) (by decide)).1

/-! Character-case lemmas for claim C9. -/

theorem toNat_bounds_of_isUpper {c : Char} (h : c.isUpper = true) :
    65 ≤ c.toNat ∧ c.toNat ≤ 90 := by
  unfold Char.isUpper at h
  simp only [Bool.and_eq_true, decide_eq_true_eq] at h
  obtain ⟨h1, h2⟩ := h
  rw [GE.ge, UInt32.le_def, BitVec.le_def] at h1
  rw [UInt32.le_def, BitVec.le_def] at h2
  exact ⟨h1, h2⟩

theorem isLower_ofNat {n : Nat} (h1 : 97 ≤ n) (h2 : n ≤ 122) :
    (Char.ofNat n).isLower = true := by
  have hv : n.isValidChar := Or.inl (by omega)
  unfold Char.ofNat
  rw [dif_pos hv]
  unfold Char.ofNatAux Char.isLower
  simp only [Bool.and_eq_true, decide_eq_true_eq]
  constructor
  · rw [GE.ge, UInt32.le_def, BitVec.le_def]
    simpa using h1
  · rw [UInt32.le_def, BitVec.le_def]
    simpa using h2

theorem toNat_ofNat_valid {n : Nat} (h : n.isValidChar) : (Char.ofNat n).toNat = n := by
  unfold Char.ofNat
  rw [dif_pos h]
  rfl

theorem isLower_toLower {c : Char} (h : c.isUpper = true) : (c.toLower).isLower = true := by
  obtain ⟨h1, h2⟩ := toNat_bounds_of_isUpper h
  unfold Char.toLower
  rw [if_pos ⟨h1, h2⟩]
  exact isLower_ofNat (by omega) (by omega)

theorem toNat_toLower_of_isUpper {c : Char} (h : c.isUpper = true) :
    97 ≤ (c.toLower).toNat ∧ (c.toLower).toNat ≤ 122 := by
  obtain ⟨h1, h2⟩ := toNat_bounds_of_isUpper h
  unfold Char.toLower
  rw [if_pos ⟨h1, h2⟩]
  rw [toNat_ofNat_valid (Or.inl (by omega))]
  omega

theorem isPySpace_eq_false_of_isLower_range {x : Char} (h : 97 ≤ x.toNat) :
    isPySpace x = false := by
  unfold isPySpace
  have d1 : decide (x = ' ') = false :=
    decide_eq_false (fun he => absurd h (by rw [he]; decide))
  have d2 : decide (x = '\t') = false :=
    decide_eq_false (fun he => absurd h (by rw [he]; decide))
  have d3 : decide (x = '\n') = false :=
    decide_eq_false (fun he => absurd h (by rw [he]; decide))
  have d4 : decide (x = '\r') = false :=
    decide_eq_false (fun he => absurd h (by rw [he]; decide))
  have d5 : decide (x.toNat = 11) = false := decide_eq_false (by omega)
  have d6 : decide (x.toNat = 12) = false := decide_eq_false (by omega)
  rw [d1, d2, d3, d4, d5, d6]
  rfl

/-- Python-style lowering of the character at index `i` (out-of-range
indices leave the list unchanged). -/
def lowerAt : List Char → Nat → List Char
  | [], _ => []
  | c :: rest, 0 => c.toLower :: rest
  | c :: rest, n + 1 => c :: lowerAt rest n

theorem toLower_get_mem_lowerAt (l : List Char) (i : Nat) (hi : i < l.length) :
    (l.get ⟨i, hi⟩).toLower ∈ lowerAt l i := by
  induction l generalizing i with
  | nil => cases hi
  | cons c rest ih =>
    cases i with
    | zero => exact List.mem_cons_self _ _
    | succ n =>
      exact List.mem_cons_of_mem c (ih n (Nat.lt_of_succ_lt_succ hi))

/-- Counterexample to C9 as stated: `"A B"` is a heading, yet
lower-casing its character at index 1 (the space, which has no distinct
lower-case form) leaves the line unchanged, so re-classification still
yields a heading. -/
theorem heading_lowercase_counterexample :
    classifyLine "A B".data = LineClass.heading
    ∧ lowerAt "A B".data 1 = "A B".data
    ∧ classifyLine (lowerAt "A B".data 1) = LineClass.heading := by
  refine ⟨by decide, by decide, by decide⟩

/-- Claim C9 (amended): lower-casing any upper-case character of a
heading line and re-running the classification yields non-heading. -/
theorem heading_lowercase_monotone (raw : List Char) (i : Nat) (hi : i < raw.length)
    (hu : (raw.get ⟨i, hi⟩).isUpper = true)
    (_hh : classifyLine raw = LineClass.heading) :
    classifyLine (lowerAt raw i) ≠ LineClass.heading := by
  intro hcon
  have hxl : ((raw.get ⟨i, hi⟩).toLower).isLower = true := isLower_toLower hu
  have hxs : isPySpace ((raw.get ⟨i, hi⟩).toLower) = false :=
    isPySpace_eq_false_of_isLower_range (toNat_toLower_of_isUpper hu).1
  have hmem : (raw.get ⟨i, hi⟩).toLower ∈ lowerAt raw i := toLower_get_mem_lowerAt raw i hi
  have hmem2 : (raw.get ⟨i, hi⟩).toLower ∈ pyStrip (lowerAt raw i) :=
    mem_pyStrip_of_mem hmem hxs
  have hfalse : pyIsUpper (pyStrip (lowerAt raw i)) = false := by
    unfold pyIsUpper
    have hany : (pyStrip (lowerAt raw i)).any Char.isLower = true :=
      List.any_eq_true.mpr ⟨_, hmem2, hxl⟩
    rw [hany]
    simp
  unfold classifyLine at hcon
  by_cases h0 : pyStrip (lowerAt raw i) = []
  · simp [h0] at hcon
  · by_cases h1 : pyIsUpper (pyStrip (lowerAt raw i)) = true ∧
        tokenCount (pyStrip (lowerAt raw i)) ≤ 8
    · rw [hfalse] at h1
      exact absurd h1.1 (by simp)
    · simp [h0, h1] at hcon

/-- Witness for C9 (amended): lower-casing the first letter of the
heading `"JOHN SMITH"` demotes it. -/
theorem heading_lowercase_monotone_witness :
    classifyLine (lowerAt "JOHN SMITH".data 0) ≠ LineClass.heading :=
  heading_lowercase_monotone "JOHN SMITH".data 0 (by decide) (by decide) (by decide)

end Resumake

namespace Resumake

/-- The opening brace character. -/
def lbrace : Char := Char.ofNat 123

/-- The closing brace character. -/
def rbrace : Char := Char.ofNat 125

/-- Python `s.find(c)` (line 715 of `src/app.py`): index of the first
occurrence, `-1` when absent. -/
def pyFind (l : List Char) (c : Char) : Int :=
  match l.findIdx? (fun x => x = c) with
  | some i => (i : Int)
  | none => -1

/-- Python `s.rfind(c)` (line 716): index of the last occurrence, `-1`
when absent. -/
def pyRfind (l : List Char) (c : Char) : Int :=
  match l.reverse.findIdx? (fun x => x = c) with
  | some i => ((l.length - 1 - i : Nat) : Int)
  | none => -1

/-- Python slice-index normalisation: negative indices count from the
end, then both ends clamp into the list. -/
def clampIdx (n : Nat) (i : Int) : Nat :=
  if i < 0 then (max 0 (i + n)).toNat else min i.toNat n

/-- Python `s[a:b]`. -/
def pySlice (l : List Char) (a b : Int) : List Char :=
  (l.take (clampIdx l.length b)).drop (clampIdx l.length a)

/-- The extraction `response_text[json_start:json_end]` of the ATS
scanner (lines 715-717): from the first opening brace to the last
closing brace inclusive. -/
def jsonSlice (t : List Char) : List Char :=
  pySlice t (pyFind t lbrace) (pyRfind t rbrace + 1)

/-- The fields of the parsed ATS verdict that the fallback logic reads:
`result.get('score', 75)` and `result.get('suggestions',
response_text)`. -/
structure AtsResult where
  score : Option Int
  suggestions : Option (List Char)
  deriving DecidableEq, Repr

/-- What the ATS scanner displays for one model response: either the
score/suggestions panel from the parsed JSON, or (in the bare `except`
branch, line 797-798) the raw response text alone. -/
inductive AtsDisplay
  | scored (score : Int) (suggestions : List Char)
  | rawInfo (text : List Char)
  deriving DecidableEq, Repr

/-- The scan flow for one response (lines 713-798), parameterised by the
JSON parser: slice the text between the braces, parse it, and on any
parse failure show the raw response. -/
def atsScan (parse : List Char → Option AtsResult) (responseText : List Char) : AtsDisplay :=
  match parse (jsonSlice responseText) with
  | some r => .scored (r.score.getD 75) (r.suggestions.getD responseText)
  | none => .rawInfo responseText

/-- Whether a score panel is displayed. -/
def isScored : AtsDisplay → Bool
  | .scored _ _ => true
  | .rawInfo _ => false

/-- Parser stand-in that always fails, as `json.loads` does on the empty
string and on a lone closing brace (the only slices possible for a
brace-free response). -/
def failingParse : List Char → Option AtsResult := fun _ => none

/-- Parser stand-in that recognises exactly the empty JSON object (a
brace pair) and yields a verdict with no fields, as `json.loads` does
there. -/
def emptyObjParse : List Char → Option AtsResult :=
  fun s => if s = [lbrace, rbrace] then some ⟨none, none⟩ else none

theorem pyFind_eq_neg_one {t : List Char} {c : Char} (h : c ∉ t) : pyFind t c = -1 := by
  unfold pyFind
  have hf : t.findIdx? (fun x => x = c) = none := by
    rw [List.findIdx?_eq_none_iff]
    intro x hx
    exact decide_eq_false (fun he => h (he ▸ hx))
  rw [hf]

theorem jsonSlice_of_no_lbrace {t : List Char} (h : lbrace ∉ t) :
    jsonSlice t = [] ∨ jsonSlice t = [rbrace] := by
  cases t using List.reverseRecOn with
  | nil => left; rfl
  | append_singleton ys y =>
    have hfind : pyFind (ys ++ [y]) lbrace = -1 := pyFind_eq_neg_one h
    have hn : (ys ++ [y]).length = ys.length + 1 := by simp
    have ha : clampIdx (ys ++ [y]).length (-1) = ys.length := by
      unfold clampIdx
      rw [if_pos (by omega), hn]
      omega
    by_cases hy : y = rbrace
    · right
      subst hy
      have hrfind : pyRfind (ys ++ [rbrace]) rbrace = (ys.length : Int) := by
        unfold pyRfind
        rw [List.reverse_append]
        rw [show [rbrace].reverse ++ ys.reverse = rbrace :: ys.reverse from by simp]
        rw [List.findIdx?_cons]
        simp [hn]
      have hb : clampIdx (ys ++ [rbrace]).length ((ys.length : Int) + 1) = ys.length + 1 := by
        unfold clampIdx
        rw [if_neg (by omega), hn]
        omega
      unfold jsonSlice pySlice
      rw [hfind, hrfind, ha, hb, ← hn, List.take_length]
      exact List.drop_left ys [rbrace]
    · left
      have hrb : pyRfind (ys ++ [y]) rbrace + 1 ≤ (ys.length : Int) := by
        unfold pyRfind
        rw [List.reverse_append]
        rw [show [y].reverse ++ ys.reverse = y :: ys.reverse from by simp]
        rw [List.findIdx?_cons]
        have hy' : decide (y = rbrace) = false := decide_eq_false hy
        simp only [hy', Bool.false_eq_true, if_false, List.findIdx?_start_succ, Nat.zero_add]
        cases hfi : ys.reverse.findIdx? (fun x => x = rbrace) with
        | none => simp [hfi]
        | some i =>
          have hne : ys ≠ [] := by
            intro he
            rw [he] at hfi
            cases hfi
          have hlen : 1 ≤ ys.length := List.length_pos.mpr hne
          simp only [hfi, Option.map_some', hn]
          omega
      have hb2 : clampIdx (ys ++ [y]).length (pyRfind (ys ++ [y]) rbrace + 1) ≤ ys.length := by
        unfold clampIdx
        by_cases hc : pyRfind (ys ++ [y]) rbrace + 1 < 0
        · rw [if_pos hc, hn]
          omega
        · rw [if_neg hc, hn]
          omega
      unfold jsonSlice pySlice
      rw [hfind, ha]
      apply List.drop_eq_nil_of_le
      rw [List.length_take]
      omega

/-- Counterexample to C8 as stated: for the brace-free response
`"hello"` the slice handed to the JSON parser is empty, parsing fails,
and the scanner displays only the raw response — no score panel at all,
so no fallback score is displayed. -/
theorem ats_fallback_counterexample :
    jsonSlice "hello".data = []
    ∧ atsScan failingParse "hello".data = AtsDisplay.rawInfo "hello".data
    ∧ isScored (atsScan failingParse "hello".data) = false :=
  ⟨by decide, rfl, rfl⟩

/-- Claim C8 (amended): for a response containing no opening brace the
extracted slice is empty or a lone closing brace, so any JSON parser
that rejects those fails and the flow displays the raw response text
alone, with no score; the fixed fallback score 75 (and the raw text as
suggestions) is applied only when the slice parses as a JSON object
lacking the respective field. -/
theorem ats_parse_failure_raw_feedback (parse : List Char → Option AtsResult)
    (t u : List Char) (r : AtsResult)
    (hpe : parse [] = none) (hpb : parse [rbrace] = none) (hnl : lbrace ∉ t)
    (hs : parse (jsonSlice u) = some r) :
    atsScan parse t = AtsDisplay.rawInfo t
    ∧ isScored (atsScan parse t) = false
    ∧ atsScan parse u = AtsDisplay.scored (r.score.getD 75) (r.suggestions.getD u) := by
  have hmain : atsScan parse t = AtsDisplay.rawInfo t := by
    unfold atsScan
    rcases jsonSlice_of_no_lbrace hnl with he | he <;> rw [he]
    · rw [hpe]
    · rw [hpb]
  refine ⟨hmain, by rw [hmain]; rfl, ?_⟩
  unfold atsScan
  rw [hs]

/-- Witness for C8 (amended): a brace-free response shows only the raw
text, while a response whose braces enclose an empty JSON object gets
the default score 75 with the raw text as suggestions. -/
theorem ats_parse_failure_raw_feedback_witness :
    atsScan emptyObjParse "no json response".data
        = AtsDisplay.rawInfo "no json response".data
    ∧ atsScan emptyObjParse ("ab".data ++ [lbrace, rbrace] ++ "cd".data)
        = AtsDisplay.scored 75 ("ab".data ++ [lbrace, rbrace] ++ "cd".data) := by
  have h := ats_parse_failure_raw_feedback emptyObjParse "no json response".data
    ("ab".data ++ [lbrace, rbrace] ++ "cd".data) ⟨none, none⟩
    (by decide) (by decide) (by decide) (by decide)
  exact ⟨h.1, h.2.2⟩

end Resumake
